import Mathlib

/-!
# Verification of the ESP32-CAM image preprocessing pipeline

Shallow embedding of `Object Detection Module/image_utils.h`:
`bilinear_interpolate` and `preprocessImageForML` (JPEG → RGB888 →
grayscale → bilinear resize → INT8 quantization).

Modelling choices:
* C `float` arithmetic is modelled by exact rational arithmetic (`ℚ`);
  the spec states all formulas over real arithmetic.
* Raw byte buffers (`uint8_t*`) are modelled as total functions `ℤ → ℕ`
  from byte offsets to stored byte values; C `int` dimensions and index
  arithmetic are carried out in `ℤ`.
* C casts from a floating value to an integer type truncate toward zero;
  conversion to `uint8_t` is taken modulo 2^8 (the in-range cases, which
  are the ones the code is supposed to hit, are unaffected).
* The external collaborators (`fmt2rgb888` decoder, `malloc` success) are
  oracle parameters; allocation/free behaviour along each control path is
  recorded explicitly in the result so the failure-path claims can be
  settled.
-/

/-- C cast of a (non-`NaN`) floating value to an integer type: truncation
toward zero. -/
def cTrunc (q : ℚ) : ℤ := if 0 ≤ q then ⌊q⌋ else -⌊-q⌋

/-- C cast of a floating value to `uint8_t`: truncate toward zero, reduce
modulo 2^8. -/
def toUInt8c (q : ℚ) : ℕ := (cTrunc q).toNat % 256

/-- C cast of an `int` value to `int8_t`: reduce modulo 2^8 into
`[-128, 127]`. -/
def toInt8c (n : ℤ) : ℤ := (n + 128) % 256 - 128

/-- Embedding of `bilinear_interpolate(uint8_t* img, int width, int height, float x, float y)`
from `image_utils.h`: nearest four-sample weighted average with the upper
neighbours clamped to the last row/column. -/
def bilinear_interpolate (img : ℤ → ℕ) (width height : ℤ) (x y : ℚ) : ℕ :=
  let x1 : ℤ := cTrunc x
  let y1 : ℤ := cTrunc y
  let x2 : ℤ := if width ≤ x1 + 1 then width - 1 else x1 + 1
  let y2 : ℤ := if height ≤ y1 + 1 then height - 1 else y1 + 1
  let dx : ℚ := x - (x1 : ℚ)
  let dy : ℚ := y - (y1 : ℚ)
  let p1 : ℚ := img (y1 * width + x1)
  let p2 : ℚ := img (y1 * width + x2)
  let p3 : ℚ := img (y2 * width + x1)
  let p4 : ℚ := img (y2 * width + x2)
  toUInt8c (p1 * (1 - dx) * (1 - dy) +
            p2 * dx * (1 - dy) +
            p3 * (1 - dx) * dy +
            p4 * dx * dy)

/-- The four byte offsets `bilinear_interpolate` reads from `img`, computed
exactly as in the function body. -/
def bilinearReadIndices (width height : ℤ) (x y : ℚ) : List ℤ :=
  let x1 : ℤ := cTrunc x
  let y1 : ℤ := cTrunc y
  let x2 : ℤ := if width ≤ x1 + 1 then width - 1 else x1 + 1
  let y2 : ℤ := if height ≤ y1 + 1 then height - 1 else y1 + 1
  [y1 * width + x1, y1 * width + x2, y2 * width + x1, y2 * width + x2]

/-- One iteration of the grayscale loop:
`gray_buf[i] = (uint8_t)(0.299f*r + 0.587f*g + 0.114f*b)` with
`r = rgb888_buf[i*3]`, `g = rgb888_buf[i*3+1]`, `b = rgb888_buf[i*3+2]`. -/
def lumaOf (r g b : ℕ) : ℕ :=
  toUInt8c ((299 / 1000 : ℚ) * r + (587 / 1000 : ℚ) * g + (114 / 1000 : ℚ) * b)

/-- The grayscale buffer produced from the RGB888 buffer (byte offset `i`
holds the luma of interleaved triplet `i`). -/
def grayBufOf (rgb : ℤ → ℕ) : ℤ → ℕ :=
  fun i => lumaOf (rgb (i * 3)) (rgb (i * 3 + 1)) (rgb (i * 3 + 2))

/-- The unsigned sample computed for output pixel `(x, y)` of the resize
loop: `bilinear_interpolate(gray_buf, src_width, src_height, x*x_ratio, y*y_ratio)`
with `x_ratio = (float)src_width / target_size`,
`y_ratio = (float)src_height / target_size`. -/
def resamplePixel (gray : ℤ → ℕ) (src_width src_height : ℤ) (target_size : ℕ)
    (x y : ℕ) : ℕ :=
  let x_ratio : ℚ := (src_width : ℚ) / (target_size : ℚ)
  let y_ratio : ℚ := (src_height : ℚ) / (target_size : ℚ)
  bilinear_interpolate gray src_width src_height ((x : ℚ) * x_ratio) ((y : ℚ) * y_ratio)

/-- The sequence of writes `output_buffer[y*target_size + x] = (int8_t)(pixel - 128)`
performed by the doubly nested resize loop, in program order, as
(index, stored value) pairs. -/
def resizeWrites (gray : ℤ → ℕ) (src_width src_height : ℤ) (target_size : ℕ) :
    List (ℕ × ℤ) :=
  (List.range target_size).flatMap (fun y =>
    (List.range target_size).map (fun x =>
      (y * target_size + x,
       toInt8c ((resamplePixel gray src_width src_height target_size x y : ℤ) - 128))))

/-- Frame descriptor `camera_fb_t`: the fields of the frame descriptor that
`preprocessImageForML` reads (`buf`/`len` are the compressed bytes, with
`len = buf.length`). -/
structure camera_fb_t where
  buf : List ℕ
  width : ℤ
  height : ℤ
  format : ℕ

/-- Observable outcome of one `preprocessImageForML` call: the returned
boolean, which intermediate buffers were allocated and freed by the time
the call returns, and the writes made to `output_buffer`. -/
structure PreprocResult where
  ok : Bool
  rgbAllocated : Bool
  rgbFreed : Bool
  grayAllocated : Bool
  grayFreed : Bool
  writes : List (ℕ × ℤ)
deriving DecidableEq, Repr

/-- Embedding of `preprocessImageForML(camera_fb_t* fb, int8_t* output_buffer, int target_size)`.

`fmt2rgb888` is the external JPEG decoder, an oracle from the compressed
bytes and format tag to either a decoded RGB888 buffer or failure;
`rgbMallocOk` / `grayMallocOk` are the outcomes of the two `malloc` calls.
A null `fb` is `none`; `outNull` says whether `output_buffer` is null.

Control flow mirrors the source: null-pointer check; RGB888 allocation
(failure → return false); decode (failure → return false, `rgb888_buf`
NOT freed); grayscale allocation (failure → free RGB, return false);
grayscale conversion; free RGB; resize loop writing the output tensor;
free gray; return true. -/
def preprocessImageForML
    (fmt2rgb888 : List ℕ → ℕ → Option (ℤ → ℕ))
    (rgbMallocOk grayMallocOk : Bool)
    (fb : Option camera_fb_t) (outNull : Bool) (target_size : ℕ) : PreprocResult :=
  match fb with
  | none => ⟨false, false, false, false, false, []⟩
  | some fb =>
    if outNull then ⟨false, false, false, false, false, []⟩
    else if !rgbMallocOk then ⟨false, false, false, false, false, []⟩
    else
      match fmt2rgb888 fb.buf fb.format with
      | none => ⟨false, true, false, false, false, []⟩
      | some rgb =>
        if !grayMallocOk then ⟨false, true, true, false, false, []⟩
        else
          ⟨true, true, true, true, true,
           resizeWrites (grayBufOf rgb) fb.width fb.height target_size⟩

/-- A decoder oracle for which `fmt2rgb888` reports failure on every input
(e.g. a corrupt JPEG stream). -/
def jpegFailDecoder : List ℕ → ℕ → Option (ℤ → ℕ) := fun _ _ => none

/-- A decoder oracle for which `fmt2rgb888` always succeeds, producing an
all-zero RGB888 buffer. -/
def zeroDecoder : List ℕ → ℕ → Option (ℤ → ℕ) := fun _ _ => some (fun _ => 0)

/-- A well-formed 4×4 frame descriptor. -/
def sampleFrame : camera_fb_t := ⟨[255, 216, 255, 217], 4, 4, 0⟩

/-- A frame descriptor with a non-null buffer but declared width 0. -/
def zeroWidthFrame : camera_fb_t := ⟨[255, 216, 255, 217], 0, 10, 0⟩

/-- The per-output-pixel resampling computation exactly as the
specification words it: continuous coordinates `x * (src_width/target_size)`
and `y * (src_height/target_size)`; `x1 = ⌊src_x⌋`, `y1 = ⌊src_y⌋`;
`x2 = x1+1` and `y2 = y1+1` clamped to at most `width-1` / `height-1`;
weighted sum of the four neighbour samples with weights `(1-dx)(1-dy)`,
`dx(1-dy)`, `(1-dx)dy`, `dx*dy`; truncated to an 8-bit unsigned value. -/
def specResamplePixel (gray : ℤ → ℕ) (src_width src_height : ℤ) (target_size : ℕ)
    (x y : ℕ) : ℕ :=
  let src_x : ℚ := (x : ℚ) * ((src_width : ℚ) / (target_size : ℚ))
  let src_y : ℚ := (y : ℚ) * ((src_height : ℚ) / (target_size : ℚ))
  let x1 : ℤ := ⌊src_x⌋
  let y1 : ℤ := ⌊src_y⌋
  let x2 : ℤ := min (x1 + 1) (src_width - 1)
  let y2 : ℤ := min (y1 + 1) (src_height - 1)
  let dx : ℚ := src_x - (x1 : ℚ)
  let dy : ℚ := src_y - (y1 : ℚ)
  (⌊(gray (y1 * src_width + x1) : ℚ) * (1 - dx) * (1 - dy) +
    (gray (y1 * src_width + x2) : ℚ) * dx * (1 - dy) +
    (gray (y2 * src_width + x1) : ℚ) * (1 - dx) * dy +
    (gray (y2 * src_width + x2) : ℚ) * dx * dy⌋).toNat % 256

/-- A 160×120 grayscale frame whose top-left 2×2 block is
`[10, 20; 30, 40]` and whose remaining samples are 0. -/
def topLeftBlockFrame : ℤ → ℕ := fun i =>
  if i = 0 then 10 else if i = 1 then 20 else if i = 160 then 30 else if i = 161 then 40 else 0

/-- A 160×120 grayscale frame holding 10, 20, 30, 40 at the four source
positions `(0,0)`, `(80,0)`, `(0,60)`, `(80,60)` actually sampled by a
2×2 resize, and 0 elsewhere. -/
def cornerSampleFrame : ℤ → ℕ := fun i =>
  if i = 0 then 10 else if i = 80 then 20 else if i = 9600 then 30 else if i = 9680 then 40 else 0

section BasicLemmas

/-- Truncating an integer toward zero returns that integer. -/
theorem cTrunc_intCast (n : ℤ) : cTrunc (n : ℚ) = n := by
  unfold cTrunc
  split
  · simp
  · rw [← Int.cast_neg, Int.floor_intCast, neg_neg]

/-- On non-negative arguments, truncation toward zero agrees with `⌊·⌋`. -/
theorem cTrunc_of_nonneg {q : ℚ} (h : 0 ≤ q) : cTrunc q = ⌊q⌋ := if_pos h

/-- A `uint8_t` value is below 2^8. -/
theorem toUInt8c_lt (q : ℚ) : toUInt8c q < 256 :=
  Nat.mod_lt _ (by norm_num)

/-- Casting a machine byte back to `uint8_t` only reduces it modulo 2^8. -/
theorem toUInt8c_natCast (n : ℕ) : toUInt8c (n : ℚ) = n % 256 := by
  unfold toUInt8c
  rw [show ((n : ℚ)) = ((n : ℤ) : ℚ) by push_cast; ring, cTrunc_intCast]
  simp

/-- The `int8_t` cast is the identity on `[-128, 127]`. -/
theorem toInt8c_of_mem {n : ℤ} (h1 : -128 ≤ n) (h2 : n ≤ 127) : toInt8c n = n := by
  unfold toInt8c
  omega

/-- Evaluating `bilinear_interpolate` at exact integer coordinates returns the sample
at those coordinates (reduced modulo 2^8): both fractional offsets vanish,
so only the `p1` term contributes. -/
theorem bilinear_interpolate_intCast (img : ℤ → ℕ) (width height : ℤ) (a b : ℤ) :
    bilinear_interpolate img width height (a : ℚ) (b : ℚ) =
      img (b * width + a) % 256 := by
  unfold bilinear_interpolate
  rw [cTrunc_intCast, cTrunc_intCast]
  simp [toUInt8c_natCast]

end BasicLemmas

/-- C1: on the decode-failure path, `preprocessImageForML` returns false with
the RGB888 buffer still allocated: the `!jpeg_converted` early return frees
nothing, so the claim that every failing invocation releases all intermediate
buffers is violated by the code. -/
theorem C1_decode_failure_leaks_rgb :
    (preprocessImageForML jpegFailDecoder true true (some sampleFrame) false 96).ok = false
    ∧ (preprocessImageForML jpegFailDecoder true true (some sampleFrame) false 96).rgbAllocated
        = true
    ∧ (preprocessImageForML jpegFailDecoder true true (some sampleFrame) false 96).rgbFreed
        = false :=
  ⟨rfl, rfl, rfl⟩

/-- Row-major index enumeration: `m` rows of `t` column indices `y*t + x`
concatenate to the initial segment `0, …, m*t - 1`. -/
theorem range_flatMap_range (m t : ℕ) :
    (List.range m).flatMap (fun y => (List.range t).map (fun x => y * t + x))
      = List.range (m * t) := by
  induction m with
  | zero => simp
  | succ k ih =>
    rw [List.range_succ, List.flatMap_append, ih, Nat.succ_mul, List.range_add]
    simp [Nat.add_comm]

/-- The (index, value) write model of the resize loop covers exactly the
indices `0, …, target_size² - 1`, in row-major program order. -/
theorem resizeWrites_map_fst (gray : ℤ → ℕ) (src_width src_height : ℤ) (t : ℕ) :
    (resizeWrites gray src_width src_height t).map Prod.fst = List.range (t * t) := by
  unfold resizeWrites
  rw [List.map_flatMap]
  simp only [List.map_map, Function.comp_def]
  exact range_flatMap_range t t

/-- C2: a frame with declared width 0 (and non-null pointers) is NOT
rejected: the code validates only the null pointers, so it allocates the
RGB888 buffer, runs to completion returning true, and writes all
`target_size²` output samples — contradicting the claim that zero
dimensions return false with no allocation and no tensor write. -/
theorem C2_zero_width_not_rejected :
    (preprocessImageForML zeroDecoder true true (some zeroWidthFrame) false 96).ok = true
    ∧ (preprocessImageForML zeroDecoder true true (some zeroWidthFrame) false 96).rgbAllocated
        = true
    ∧ (preprocessImageForML zeroDecoder true true (some zeroWidthFrame) false 96).writes.length
        = 9216 := by
  refine ⟨rfl, rfl, ?_⟩
  have h := congrArg List.length
    (resizeWrites_map_fst (grayBufOf (fun _ => 0)) 0 10 96)
  simpa using h

/-- C9: `preprocessImageForML` is deterministic: with the same decoder and
allocation outcomes, two frames with byte-identical buffers, dimensions and
format produce identical results (return value, buffer bookkeeping and all
output-tensor writes). -/
theorem C9_deterministic (dec : List ℕ → ℕ → Option (ℤ → ℕ)) (rgbOk grayOk : Bool)
    (fb1 fb2 : camera_fb_t) (outNull : Bool) (t : ℕ)
    (hbuf : fb1.buf = fb2.buf) (hw : fb1.width = fb2.width)
    (hh : fb1.height = fb2.height) (hf : fb1.format = fb2.format) :
    preprocessImageForML dec rgbOk grayOk (some fb1) outNull t
      = preprocessImageForML dec rgbOk grayOk (some fb2) outNull t := by
  obtain ⟨b1, w1, h1, f1⟩ := fb1
  obtain ⟨b2, w2, h2, f2⟩ := fb2
  simp only [camera_fb_t.mk.injEq] at hbuf hw hh hf ⊢
  subst hbuf hw hh hf
  rfl

/-- C9 witness at a concrete frame. -/
theorem C9_deterministic_witness :
    preprocessImageForML zeroDecoder true true (some ⟨[3, 1], 2, 1, 0⟩) false 2
      = preprocessImageForML zeroDecoder true true (some ⟨[3, 1], 2, 1, 0⟩) false 2 :=
  C9_deterministic zeroDecoder true true ⟨[3, 1], 2, 1, 0⟩ ⟨[3, 1], 2, 1, 0⟩ false 2
    rfl rfl rfl rfl

/-- The unsigned sample produced for any output pixel fits in a byte. -/
theorem resamplePixel_lt (gray : ℤ → ℕ) (w h : ℤ) (t x y : ℕ) :
    resamplePixel gray w h t x y < 256 := by
  unfold resamplePixel bilinear_interpolate
  exact toUInt8c_lt _

/-- C5: every write of the resize loop stores the interpolated unsigned
sample for its pixel minus 128 (the `int8_t` cast does not wrap), and every
stored value lies in `[-128, 127]`. -/
theorem C5_quantized_write_range (gray : ℤ → ℕ) (w h : ℤ) (t : ℕ) (p : ℕ × ℤ)
    (hp : p ∈ resizeWrites gray w h t) :
    (∃ x y, x < t ∧ y < t ∧ p.1 = y * t + x ∧
        p.2 = (resamplePixel gray w h t x y : ℤ) - 128)
    ∧ -128 ≤ p.2 ∧ p.2 ≤ 127 := by
  unfold resizeWrites at hp
  rw [List.mem_flatMap] at hp
  obtain ⟨y, hy, hp⟩ := hp
  rw [List.mem_map] at hp
  obtain ⟨x, hx, hp⟩ := hp
  rw [List.mem_range] at hy hx
  have hlt : resamplePixel gray w h t x y < 256 := resamplePixel_lt gray w h t x y
  have hid : toInt8c ((resamplePixel gray w h t x y : ℤ) - 128)
      = (resamplePixel gray w h t x y : ℤ) - 128 := by
    apply toInt8c_of_mem <;> omega
  subst hp
  refine ⟨⟨x, y, hx, hy, rfl, by simpa using hid⟩, ?_, ?_⟩ <;> simp [hid] <;> omega

/-- C5 witness: the single write of a 1×1 resample of a constant-7 buffer. -/
theorem C5_quantized_write_range_witness :
    (((0, -121) : ℕ × ℤ) ∈ resizeWrites (fun _ => 7) 1 1 1)
    ∧ ((∃ x y, x < 1 ∧ y < 1 ∧ (((0, -121) : ℕ × ℤ)).1 = y * 1 + x ∧
          (((0, -121) : ℕ × ℤ)).2 = (resamplePixel (fun _ => 7) 1 1 1 x y : ℤ) - 128)
        ∧ -128 ≤ (((0, -121) : ℕ × ℤ)).2 ∧ (((0, -121) : ℕ × ℤ)).2 ≤ 127) := by
  have hp : (((0, -121) : ℕ × ℤ)) ∈ resizeWrites (fun _ => 7) 1 1 1 := by
    norm_num [resizeWrites, resamplePixel, bilinear_interpolate, toUInt8c, toInt8c, cTrunc,
      List.range_succ]
  exact ⟨hp, C5_quantized_write_range (fun _ => 7) 1 1 1 ((0, -121) : ℕ × ℤ) hp⟩

/-- C10: on every invocation that returns true, the set of output-buffer
indices written is exactly `{0, …, target_size² - 1}`, each written exactly
once (the write-index list is duplicate-free); the source frame is only
read (the model is a pure function of it). -/
theorem C10_output_fully_written (dec : List ℕ → ℕ → Option (ℤ → ℕ))
    (rgbOk grayOk : Bool) (fb : Option camera_fb_t) (outNull : Bool) (t : ℕ)
    (h : (preprocessImageForML dec rgbOk grayOk fb outNull t).ok = true) :
    (preprocessImageForML dec rgbOk grayOk fb outNull t).writes.map Prod.fst
        = List.range (t * t)
    ∧ ((preprocessImageForML dec rgbOk grayOk fb outNull t).writes.map Prod.fst).Nodup := by
  cases fb with
  | none => simp [preprocessImageForML] at h
  | some fb =>
    cases outNull with
    | true => simp [preprocessImageForML] at h
    | false =>
      cases rgbOk with
      | false => simp [preprocessImageForML] at h
      | true =>
        cases hdec : dec fb.buf fb.format with
        | none => simp [preprocessImageForML, hdec] at h
        | some rgb =>
          cases grayOk with
          | false => simp [preprocessImageForML, hdec] at h
          | true =>
            have hw : (preprocessImageForML dec true true (some fb) false t).writes
                = resizeWrites (grayBufOf rgb) fb.width fb.height t := by
              simp [preprocessImageForML, hdec]
            rw [hw, resizeWrites_map_fst]
            exact ⟨rfl, List.nodup_range _⟩

/-- C10 witness: a successful 2×2 run over a 4×4 frame. -/
theorem C10_output_fully_written_witness :
    (preprocessImageForML zeroDecoder true true (some sampleFrame) false 2).writes.map
        Prod.fst = List.range (2 * 2)
    ∧ ((preprocessImageForML zeroDecoder true true (some sampleFrame) false 2).writes.map
        Prod.fst).Nodup :=
  C10_output_fully_written zeroDecoder true true (some sampleFrame) false 2 rfl

/-- C4: the grayscale sample is the weighted sum
`0.299*R + 0.587*G + 0.114*B` truncated toward zero (for byte-valued
channels the `uint8_t` cast neither rounds nor wraps), and on an
equal-channel pixel `R=G=B=v` the luma is exactly `v` (so certainly within
truncation error 1 of `v`). -/
theorem C4_luma_weighted_trunc (r g b v : ℕ)
    (hr : r ≤ 255) (hg : g ≤ 255) (hb : b ≤ 255) (hv : v ≤ 255) :
    (lumaOf r g b : ℤ)
      = ⌊(299 / 1000 : ℚ) * r + (587 / 1000 : ℚ) * g + (114 / 1000 : ℚ) * b⌋
    ∧ lumaOf v v v = v := by
  constructor
  · have h0 : (0 : ℚ) ≤ (299 / 1000 : ℚ) * r + (587 / 1000 : ℚ) * g + (114 / 1000 : ℚ) * b := by
      positivity
    have h255 : (299 / 1000 : ℚ) * r + (587 / 1000 : ℚ) * g + (114 / 1000 : ℚ) * b ≤ 255 := by
      have hr' : (r : ℚ) ≤ 255 := by exact_mod_cast hr
      have hg' : (g : ℚ) ≤ 255 := by exact_mod_cast hg
      have hb' : (b : ℚ) ≤ 255 := by exact_mod_cast hb
      linarith
    have hf0 : 0 ≤ ⌊(299 / 1000 : ℚ) * r + (587 / 1000 : ℚ) * g + (114 / 1000 : ℚ) * b⌋ :=
      Int.floor_nonneg.mpr h0
    have hf255 : ⌊(299 / 1000 : ℚ) * r + (587 / 1000 : ℚ) * g + (114 / 1000 : ℚ) * b⌋ ≤ 255 := by
      have := Int.floor_le_floor (α := ℚ) h255
      simpa using this
    unfold lumaOf toUInt8c
    rw [cTrunc_of_nonneg h0]
    push_cast
    omega
  · have hsum : (299 / 1000 : ℚ) * v + (587 / 1000 : ℚ) * v + (114 / 1000 : ℚ) * v = (v : ℚ) := by
      ring
    unfold lumaOf
    rw [hsum, toUInt8c_natCast]
    omega

/-- C4 witness at a concrete pixel and a concrete equal-channel value. -/
theorem C4_luma_weighted_trunc_witness :
    ((lumaOf 10 20 200 : ℤ)
        = ⌊(299 / 1000 : ℚ) * 10 + (587 / 1000 : ℚ) * 20 + (114 / 1000 : ℚ) * 200⌋
      ∧ lumaOf 10 10 10 = 10)
    ∧ lumaOf 10 20 200 = 37 := by
  constructor
  · have := C4_luma_weighted_trunc 10 20 200 10 (by norm_num) (by norm_num) (by norm_num)
      (by norm_num)
    simpa using this
  · norm_num [lumaOf, toUInt8c, cTrunc]
    decide

/-- C6: when source width and height both equal `target_size`, the scale
ratios are 1, both fractional offsets vanish at every grid point, the
interpolated sample at output pixel `(x, y)` is exactly the grayscale
sample at `(x, y)`, and the write performed for that pixel stores that
sample minus 128. -/
theorem C6_identity_resize (gray : ℤ → ℕ) (t x y : ℕ) (hx : x < t) (hy : y < t)
    (hg : gray ((y : ℤ) * (t : ℤ) + (x : ℤ)) < 256) :
    resamplePixel gray (t : ℤ) (t : ℤ) t x y = gray ((y : ℤ) * (t : ℤ) + (x : ℤ))
    ∧ ((y * t + x, (gray ((y : ℤ) * (t : ℤ) + (x : ℤ)) : ℤ) - 128)
        ∈ resizeWrites gray (t : ℤ) (t : ℤ) t) := by
  have ht : (t : ℚ) ≠ 0 := by
    have : 0 < t := Nat.pos_of_ne_zero (by omega)
    positivity
  have hpix : resamplePixel gray (t : ℤ) (t : ℤ) t x y
      = gray ((y : ℤ) * (t : ℤ) + (x : ℤ)) := by
    have hb := bilinear_interpolate_intCast gray (t : ℤ) (t : ℤ) (x : ℤ) (y : ℤ)
    unfold resamplePixel
    push_cast at hb ⊢
    rw [div_self ht, mul_one, mul_one, hb]
    have hg' : gray ((y : ℤ) * (t : ℤ) + (x : ℤ)) < 256 := hg
    push_cast at hg'
    omega
  refine ⟨hpix, ?_⟩
  unfold resizeWrites
  rw [List.mem_flatMap]
  refine ⟨y, List.mem_range.mpr hy, ?_⟩
  rw [List.mem_map]
  refine ⟨x, List.mem_range.mpr hx, ?_⟩
  rw [hpix]
  have hcast : ((gray ((y : ℤ) * (t : ℤ) + (x : ℤ)) : ℕ) : ℤ) < 256 := by exact_mod_cast hg
  rw [toInt8c_of_mem (by omega) (by omega)]

/-- C6 witness: identity 2×2 resize of a constant buffer. -/
theorem C6_identity_resize_witness :
    resamplePixel (fun _ => 7) (2 : ℤ) (2 : ℤ) 2 1 1 = (fun _ => 7) ((1 : ℤ) * 2 + 1)
    ∧ ((1 * 2 + 1, ((fun _ => 7) ((1 : ℤ) * 2 + 1) : ℤ) - 128)
        ∈ resizeWrites (fun _ => 7) (2 : ℤ) (2 : ℤ) 2) := by
  have := C6_identity_resize (fun _ => 7) 2 1 1 (by norm_num) (by norm_num) (by norm_num)
  simpa using this

/-- C7: sampling at the bottom-right source corner `(width-1, height-1)`
computes all four neighbour offsets as the corner index — in bounds — and
returns exactly the corner sample. -/
theorem C7_corner_sample (img : ℤ → ℕ) (w h : ℤ) (hw : 1 ≤ w) (hh : 1 ≤ h)
    (hc : img ((h - 1) * w + (w - 1)) < 256) :
    (∀ i ∈ bilinearReadIndices w h ((w - 1 : ℤ) : ℚ) ((h - 1 : ℤ) : ℚ),
        0 ≤ i ∧ i < w * h)
    ∧ bilinear_interpolate img w h ((w - 1 : ℤ) : ℚ) ((h - 1 : ℤ) : ℚ)
        = img ((h - 1) * w + (w - 1)) := by
  have key : (h - 1) * w + (w - 1) = w * h - 1 := by ring
  have hpos : 0 < w * h := mul_pos (by omega) (by omega)
  have hnn : 0 ≤ (h - 1) * w := mul_nonneg (by omega) (by omega)
  constructor
  · intro i hi
    unfold bilinearReadIndices at hi
    rw [cTrunc_intCast, cTrunc_intCast] at hi
    simp only [if_pos (by omega : w ≤ w - 1 + 1), if_pos (by omega : h ≤ h - 1 + 1)] at hi
    simp only [List.mem_cons, List.not_mem_nil, or_false, or_self] at hi
    subst hi
    constructor <;> linarith [key, hpos, hnn, hw, hh]
  · rw [bilinear_interpolate_intCast]
    exact Nat.mod_eq_of_lt hc

/-- C7 witness on a concrete 3×2 buffer. -/
theorem C7_corner_sample_witness :
    (∀ i ∈ bilinearReadIndices 3 2 (((3 : ℤ) - 1 : ℤ) : ℚ) (((2 : ℤ) - 1 : ℤ) : ℚ),
        0 ≤ i ∧ i < 3 * 2)
    ∧ bilinear_interpolate (fun _ => 9) 3 2 (((3 : ℤ) - 1 : ℤ) : ℚ) (((2 : ℤ) - 1 : ℤ) : ℚ)
        = (fun _ => 9) (((2 : ℤ) - 1) * 3 + ((3 : ℤ) - 1)) :=
  C7_corner_sample (fun _ => 9) 3 2 (by norm_num) (by norm_num) (by norm_num)

/-- The source's upper-neighbour clamp `if (x2 >= width) x2 = width - 1`
is the spec's "clamped to at most `width-1`". -/
theorem clamp_eq_min (w z : ℤ) :
    (if w ≤ z + 1 then w - 1 else z + 1) = min (z + 1) (w - 1) := by
  split <;> omega

/-- The bilinear weighted sum of byte samples is non-negative when both
fractional offsets lie in `[0, 1]`, so truncation toward zero is `⌊·⌋`. -/
theorem cTrunc_weighted_sum (p1 p2 p3 p4 : ℕ) (dx dy : ℚ)
    (hdx0 : 0 ≤ dx) (hdx1 : dx ≤ 1) (hdy0 : 0 ≤ dy) (hdy1 : dy ≤ 1) :
    cTrunc ((p1 : ℚ) * (1 - dx) * (1 - dy) + (p2 : ℚ) * dx * (1 - dy) +
            (p3 : ℚ) * (1 - dx) * dy + (p4 : ℚ) * dx * dy)
      = ⌊(p1 : ℚ) * (1 - dx) * (1 - dy) + (p2 : ℚ) * dx * (1 - dy) +
         (p3 : ℚ) * (1 - dx) * dy + (p4 : ℚ) * dx * dy⌋ := by
  apply cTrunc_of_nonneg
  have h1 : (0 : ℚ) ≤ (p1 : ℚ) * (1 - dx) * (1 - dy) := by
    apply mul_nonneg (mul_nonneg (Nat.cast_nonneg p1) (by linarith)) (by linarith)
  have h2 : (0 : ℚ) ≤ (p2 : ℚ) * dx * (1 - dy) := by
    apply mul_nonneg (mul_nonneg (Nat.cast_nonneg p2) hdx0) (by linarith)
  have h3 : (0 : ℚ) ≤ (p3 : ℚ) * (1 - dx) * dy := by
    apply mul_nonneg (mul_nonneg (Nat.cast_nonneg p3) (by linarith)) hdy0
  have h4 : (0 : ℚ) ≤ (p4 : ℚ) * dx * dy := by
    apply mul_nonneg (mul_nonneg (Nat.cast_nonneg p4) hdx0) hdy0
  linarith

/-- C3: for non-negative source dimensions, the resampler computes, at every
output pixel, exactly the spec-stated formula: same continuous coordinates,
floors, edge-replicating clamp, weights and 8-bit truncation. -/
theorem C3_resampler_matches_spec (gray : ℤ → ℕ) (w h : ℤ) (t x y : ℕ)
    (hw : 0 ≤ w) (hh : 0 ≤ h) :
    resamplePixel gray w h t x y = specResamplePixel gray w h t x y := by
  have hwq : (0 : ℚ) ≤ (w : ℚ) := by exact_mod_cast hw
  have hhq : (0 : ℚ) ≤ (h : ℚ) := by exact_mod_cast hh
  have hsx : (0 : ℚ) ≤ (x : ℚ) * ((w : ℚ) / (t : ℚ)) :=
    mul_nonneg (Nat.cast_nonneg x) (div_nonneg hwq (Nat.cast_nonneg t))
  have hsy : (0 : ℚ) ≤ (y : ℚ) * ((h : ℚ) / (t : ℚ)) :=
    mul_nonneg (Nat.cast_nonneg y) (div_nonneg hhq (Nat.cast_nonneg t))
  have hdx0 : (0 : ℚ) ≤ (x : ℚ) * ((w : ℚ) / (t : ℚ)) - (⌊(x : ℚ) * ((w : ℚ) / (t : ℚ))⌋ : ℚ) :=
    sub_nonneg.mpr (Int.floor_le _)
  have hdx1 : (x : ℚ) * ((w : ℚ) / (t : ℚ)) - (⌊(x : ℚ) * ((w : ℚ) / (t : ℚ))⌋ : ℚ) ≤ 1 := by
    have := Int.lt_floor_add_one ((x : ℚ) * ((w : ℚ) / (t : ℚ)))
    linarith
  have hdy0 : (0 : ℚ) ≤ (y : ℚ) * ((h : ℚ) / (t : ℚ)) - (⌊(y : ℚ) * ((h : ℚ) / (t : ℚ))⌋ : ℚ) :=
    sub_nonneg.mpr (Int.floor_le _)
  have hdy1 : (y : ℚ) * ((h : ℚ) / (t : ℚ)) - (⌊(y : ℚ) * ((h : ℚ) / (t : ℚ))⌋ : ℚ) ≤ 1 := by
    have := Int.lt_floor_add_one ((y : ℚ) * ((h : ℚ) / (t : ℚ)))
    linarith
  simp only [resamplePixel, bilinear_interpolate, specResamplePixel, toUInt8c]
  rw [cTrunc_of_nonneg hsx, cTrunc_of_nonneg hsy]
  simp only [clamp_eq_min]
  rw [cTrunc_weighted_sum _ _ _ _ _ _ hdx0 hdx1 hdy0 hdy1]

/-- C3 witness on a concrete 3×2 buffer resampled to 2×2, at pixel (1,1). -/
theorem C3_resampler_matches_spec_witness :
    resamplePixel (fun i => if i = 0 then 3 else 250) 3 2 2 1 1
      = specResamplePixel (fun i => if i = 0 then 3 else 250) 3 2 2 1 1
    ∧ resamplePixel (fun i => if i = 0 then 3 else 250) 3 2 2 1 1 = 250 := by
  constructor
  · exact C3_resampler_matches_spec (fun i => if i = 0 then 3 else 250) 3 2 2 1 1
      (by norm_num) (by norm_num)
  · norm_num [resamplePixel, bilinear_interpolate, toUInt8c, cTrunc]
    decide

/-- When the continuous source coordinates are exact integers, the
resampled pixel is the source sample at those coordinates. -/
theorem resamplePixel_int (gray : ℤ → ℕ) (w h : ℤ) (t x y : ℕ) (a b : ℤ)
    (hx : (x : ℚ) * ((w : ℚ) / (t : ℚ)) = (a : ℚ))
    (hy : (y : ℚ) * ((h : ℚ) / (t : ℚ)) = (b : ℚ)) :
    resamplePixel gray w h t x y = gray (b * w + a) % 256 := by
  simp only [resamplePixel]
  rw [hx, hy, bilinear_interpolate_intCast]

/-- C8 counterexample: on a 160×120 frame whose top-left 2×2 luma block is
`[10, 20; 30, 40]` (zero elsewhere), the 2×2 resize does NOT produce
`[-118, -108; -98, -88]`: it produces `[-118, -128; -128, -128]`, because
the scale ratios are 80 and 60, so the loop samples source pixels
`(0,0), (80,0), (0,60), (80,60)` rather than the top-left block. -/
theorem C8_topLeft_block_counterexample :
    topLeftBlockFrame 0 = 10 ∧ topLeftBlockFrame 1 = 20
    ∧ topLeftBlockFrame 160 = 30 ∧ topLeftBlockFrame 161 = 40
    ∧ (resizeWrites topLeftBlockFrame 160 120 2).map Prod.snd = [-118, -128, -128, -128]
    ∧ (resizeWrites topLeftBlockFrame 160 120 2).map Prod.snd ≠ [-118, -108, -98, -88] := by
  have he : (resizeWrites topLeftBlockFrame 160 120 2).map Prod.snd
      = [-118, -128, -128, -128] := by
    norm_num [resizeWrites, resamplePixel, bilinear_interpolate, toUInt8c, toInt8c, cTrunc,
      topLeftBlockFrame, List.range_succ]
  refine ⟨rfl, rfl, rfl, rfl, he, ?_⟩
  rw [he]
  decide

/-- C8 amended: the 2×2 resize of a 160×120 frame reads the source samples
at `(0,0)`, `(80,0)`, `(0,60)`, `(80,60)`; when those samples are
10, 20, 30, 40, the produced tensor is `[-118, -108; -98, -88]`
(each sampled value minus 128). -/
theorem C8_resize_samples_ratio_grid (gray : ℤ → ℕ) (h0 : gray 0 = 10) (h1 : gray 80 = 20)
    (h2 : gray 9600 = 30) (h3 : gray 9680 = 40) :
    (resizeWrites gray 160 120 2).map Prod.snd = [-118, -108, -98, -88] := by
  have e00 : resamplePixel gray 160 120 2 0 0 = 10 := by
    rw [resamplePixel_int gray 160 120 2 0 0 0 0 (by norm_num) (by norm_num)]
    norm_num [h0]
  have e10 : resamplePixel gray 160 120 2 1 0 = 20 := by
    rw [resamplePixel_int gray 160 120 2 1 0 80 0 (by norm_num) (by norm_num)]
    norm_num [h1]
  have e01 : resamplePixel gray 160 120 2 0 1 = 30 := by
    rw [resamplePixel_int gray 160 120 2 0 1 0 60 (by norm_num) (by norm_num)]
    norm_num [h2]
  have e11 : resamplePixel gray 160 120 2 1 1 = 40 := by
    rw [resamplePixel_int gray 160 120 2 1 1 80 60 (by norm_num) (by norm_num)]
    norm_num [h3]
  unfold resizeWrites
  rw [show List.range 2 = [0, 1] from rfl]
  simp only [List.flatMap_cons, List.flatMap_nil, List.map_cons, List.map_nil,
    List.append_nil, List.map_append]
  rw [e00, e10, e01, e11]
  norm_num [toInt8c]

/-- C8 amended witness at the concrete frame `cornerSampleFrame`. -/
theorem C8_resize_samples_ratio_grid_witness :
    (resizeWrites cornerSampleFrame 160 120 2).map Prod.snd = [-118, -108, -98, -88] :=
  C8_resize_samples_ratio_grid cornerSampleFrame rfl rfl rfl rfl
